import Mathlib

set_option maxRecDepth 16384

/-!
Verification of the realtylink scraping pipeline (modules utils, parser,
data_saver, get_all_links) against its natural-language specification.

The Python code is shallowly embedded: HTML documents are represented by
their parse trees (an inductive of element and text nodes); the
BeautifulSoup lookups used by the code (find by tag and attributes,
find_all, parent access, the string property) are implemented over that
tree; Python string operations (strip, split, find, slicing) are
implemented with their Python semantics; fallible Python code is embedded
in Except, with the exception text carried as a string.
-/

deriving instance DecidableEq for Except

namespace Realty

/-! ### Python string primitives -/

/-- Python str.strip(): remove leading and trailing whitespace. -/
def pyStrip (s : String) : String :=
  String.mk (((s.toList.dropWhile Char.isWhitespace).reverse.dropWhile
    Char.isWhitespace).reverse)

/-- Helper for pySplitWs: accumulate the current word (reversed) while
scanning the characters. -/
def pySplitWsAux : List Char → List Char → List String
  | [], acc => if acc.isEmpty then [] else [String.mk acc.reverse]
  | c :: cs, acc =>
    if c.isWhitespace then
      if acc.isEmpty then pySplitWsAux cs []
      else String.mk acc.reverse :: pySplitWsAux cs []
    else pySplitWsAux cs (c :: acc)

/-- Python str.split() with no argument: split on runs of whitespace,
dropping empty fields. -/
def pySplitWs (s : String) : List String :=
  pySplitWsAux s.toList []

/-- Split a character list at the first occurrence of the (nonempty)
separator: returns the part before and the part after, or none when the
separator does not occur. -/
def splitAtFirst (sep : List Char) : List Char → Option (List Char × List Char)
  | [] => none
  | c :: rest =>
    if sep.isPrefixOf (c :: rest) then some ([], (c :: rest).drop sep.length)
    else
      match splitAtFirst sep rest with
      | some (a, b) => some (c :: a, b)
      | none => none

/-- Python str.split(sep, 1): at most one split, at the first occurrence
of sep. -/
def pySplit1 (sep s : String) : List String :=
  match splitAtFirst sep.toList s.toList with
  | some (a, b) => [String.mk a, String.mk b]
  | none => [s]

/-- Index of the first occurrence of a character in a list, if any. -/
def charIndex (c : Char) : List Char → Option Nat
  | [] => none
  | d :: ds => if d = c then some 0 else (charIndex c ds).map (· + 1)

/-- Python str.find for a single-character needle: index of the first
occurrence, -1 when absent. -/
def pyFindChar (s : String) (c : Char) : Int :=
  match charIndex c s.toList with
  | some i => (i : Int)
  | none => -1

/-- Python slice s[a:b] with full Python index normalization (negative
indices count from the end, out-of-range indices are clamped). -/
def pySlice (s : String) (a b : Int) : String :=
  let n : Int := (s.toList.length : Int)
  let norm : Int → Nat := fun i =>
    (if i < 0 then max (n + i) 0 else min i n).toNat
  String.mk (((s.toList.drop (norm a)).take (norm b - norm a)))

/-- Does the needle occur as a contiguous run in the haystack?  (Scans
every suffix for the needle as a prefix.) -/
def containsRun (needle : List Char) : List Char → Bool
  | [] => needle.isEmpty
  | c :: rest => needle.isPrefixOf (c :: rest) || containsRun needle rest

/-- Python substring containment (needle in haystack). -/
def pyContains (hay needle : String) : Bool :=
  containsRun needle.toList hay.toList

/-! ### The json.loads fragment used by the code

parse_photo_array feeds json.loads a slice expected to be a JSON array of
string literals (the photo URL payload).  The fragment below implements
json.loads for exactly that sublanguage: arrays of double-quoted strings
with the common escapes; every other JSON form is reported as a decode
error, as are the inputs (empty or ill-formed slices) the code can
actually produce. -/

/-- Parse the body of a JSON string literal after the opening quote,
handling the escapes that occur in URL payloads; none on unterminated or
unsupported input (Python raises JSONDecodeError there). -/
def parseJStrAux : List Char → List Char → Option (String × List Char)
  | [], _ => none
  | '\x22' :: r, acc => some (String.mk acc.reverse, r)
  | '\\' :: c :: r, acc =>
    if c = '\x22' then parseJStrAux r ('\x22' :: acc)
    else if c = '\\' then parseJStrAux r ('\\' :: acc)
    else if c = '/' then parseJStrAux r ('/' :: acc)
    else if c = 'n' then parseJStrAux r ('\n' :: acc)
    else if c = 't' then parseJStrAux r ('\t' :: acc)
    else none
  | c :: r, acc => parseJStrAux r (c :: acc)

/-- Parse one JSON string literal, returning it and the remaining input. -/
def parseJStr : List Char → Option (String × List Char)
  | '\x22' :: r => parseJStrAux r []
  | _ => none

/-- Skip JSON whitespace. -/
def skipWs (cs : List Char) : List Char :=
  cs.dropWhile Char.isWhitespace

/-- Parse the comma-separated items of a nonempty JSON string array, up to
and including the closing bracket; fuel bounds the recursion. -/
def parseItemsAux : Nat → List Char → Option (List String × List Char)
  | 0, _ => none
  | fuel + 1, cs =>
    match parseJStr cs with
    | none => none
    | some (x, rest) =>
      match skipWs rest with
      | ',' :: r2 =>
        match parseItemsAux fuel (skipWs r2) with
        | some (xs, rem) => some (x :: xs, rem)
        | none => none
      | ']' :: r2 => some ([x], r2)
      | _ => none

/-- The json.loads fragment: decode a JSON array of string literals;
every other input is a decode error. -/
def pyJsonLoadsArr (s : String) : Except String (List String) :=
  match skipWs s.toList with
  | '[' :: rest =>
    match skipWs rest with
    | ']' :: rem =>
      if (skipWs rem).isEmpty then .ok [] else .error "JSONDecodeError: Extra data"
    | body =>
      match parseItemsAux (body.length + 1) body with
      | some (xs, rem) =>
        if (skipWs rem).isEmpty then .ok xs
        else .error "JSONDecodeError: Extra data"
      | none => .error "JSONDecodeError: Expecting value"
  | _ => .error "JSONDecodeError: Expecting value"

/-! ### The HTML document model

BeautifulSoup(html_text) is modelled by the parse tree it produces: a
root node whose descendants are element nodes (tag name, attribute list,
children) and text nodes.  The lookups the code performs are implemented
below with the BeautifulSoup semantics: find scans the strict descendants
in document (preorder) order and returns the first match; a query
attribute named class matches when the sought token is among the
whitespace-separated tokens of the attribute of the element; the text
property concatenates all descendant text; the string property is the
unique text descendant reached through single children, when it exists. -/

inductive Node where
  | elem (tag : String) (attrs : List (String × String)) (children : List Node)
  | text (s : String)

/-- The text property of a node: concatenation of all descendant text. -/
def nodeText : Node → String
  | .text s => s
  | .elem _ _ cs => nodesText cs
where
  nodesText : List Node → String
  | [] => ""
  | c :: cs => nodeText c ++ nodesText cs

/-- Attribute lookup on an element node. -/
def getAttr (n : Node) (k : String) : Option String :=
  match n with
  | .elem _ attrs _ => attrs.lookup k
  | .text _ => none

/-- Does the class attribute of the node contain the given token?
BeautifulSoup treats class as multi-valued, split on whitespace. -/
def hasClassToken (n : Node) (c : String) : Bool :=
  match getAttr n "class" with
  | some v => (pySplitWs v).contains c
  | none => false

/-- Does the node match a find query of a tag name and attribute
constraints (class constraints by token membership, others by exact
value)?  Text nodes never match a named query. -/
def matchesQuery (tag : String) (attrs : List (String × String)) (n : Node) : Bool :=
  match n with
  | .elem t _ _ =>
    t = tag && attrs.all fun kv =>
      if kv.1 = "class" then hasClassToken n kv.2
      else getAttr n kv.1 = some kv.2
  | .text _ => false

mutual

/-- Search one node and its descendants in preorder for the first node
satisfying the predicate. -/
def findNode (p : Node → Bool) : Node → Option Node
  | .text s => if p (.text s) then some (.text s) else none
  | .elem t a cs =>
    if p (.elem t a cs) then some (.elem t a cs) else findForest p cs

/-- First node in preorder among the given forest (descendants included)
satisfying the predicate. -/
def findForest (p : Node → Bool) : List Node → Option Node
  | [] => none
  | n :: ns =>
    match findNode p n with
    | some r => some r
    | none => findForest p ns

end

/-- soup.find / tag.find: first matching strict descendant. -/
def Node.findFirst (n : Node) (p : Node → Bool) : Option Node :=
  match n with
  | .elem _ _ cs => findForest p cs
  | .text _ => none

mutual

/-- Like findNode but also returns the parent of the match (the given
parent when the match is the node itself). -/
def findNodeP (p : Node → Bool) (parent : Node) : Node → Option (Node × Node)
  | .text s => if p (.text s) then some (.text s, parent) else none
  | .elem t a cs =>
    if p (.elem t a cs) then some (.elem t a cs, parent)
    else findForestP p (.elem t a cs) cs

/-- Like findForest but also returns the parent of the match (the given
parent for the top layer of the forest). -/
def findForestP (p : Node → Bool) (parent : Node) :
    List Node → Option (Node × Node)
  | [] => none
  | n :: ns =>
    match findNodeP p parent n with
    | some r => some r
    | none => findForestP p parent ns

end

/-- soup.find followed by a parent access on the result. -/
def Node.findFirstWithParent (n : Node) (p : Node → Bool) :
    Option (Node × Node) :=
  match n with
  | .elem _ _ cs => findForestP p n cs
  | .text _ => none

mutual

/-- All nodes of the subtree (the node included) matching the predicate,
in document (preorder) order. -/
def findAllNode (p : Node → Bool) : Node → List Node
  | .text s => if p (.text s) then [.text s] else []
  | .elem t a cs =>
    (if p (.elem t a cs) then [.elem t a cs] else []) ++ findAllForest p cs

/-- All matching nodes of the forest in document (preorder) order. -/
def findAllForest (p : Node → Bool) : List Node → List Node
  | [] => []
  | n :: ns => findAllNode p n ++ findAllForest p ns

end

/-- soup.find_all over the strict descendants. -/
def Node.findAll (n : Node) (p : Node → Bool) : List Node :=
  match n with
  | .elem _ _ cs => findAllForest p cs
  | .text _ => []

/-- The string property: the single text descendant reached through a
chain of only children, when it exists. -/
def nodeString : Node → Option String
  | .text s => some s
  | .elem _ _ [c] => nodeString c
  | .elem _ _ _ => none

mutual

/-- soup.find with a tag name and a string predicate, as used by
parse_photo_array, on one node and its descendants: scan the script
elements in preorder; for each one the predicate is applied to its string
property, so a script whose string property is missing makes the
membership test raise TypeError (argument of type NoneType is not
iterable), which this function reports as an error; otherwise the first
script whose string contains the marker is returned (its string), or none
when no script matches. -/
def findMarkerScriptNode (marker : String) : Node → Except String (Option String)
  | .text _ => .ok none
  | .elem t a cs =>
    if t = "script" then
      match nodeString (.elem t a cs) with
      | none => .error "TypeError: argument of type \x27NoneType\x27 is not iterable"
      | some s =>
        if pyContains s marker then .ok (some s)
        else findMarkerScriptIn marker cs
    else findMarkerScriptIn marker cs

/-- The search above on a forest, in preorder. -/
def findMarkerScriptIn (marker : String) : List Node → Except String (Option String)
  | [] => .ok none
  | n :: ns =>
    match findMarkerScriptNode marker n with
    | .ok none => findMarkerScriptIn marker ns
    | .ok (some r) => .ok (some r)
    | .error e => .error e

end

/-- Entry point of the marker-script search on a document root. -/
def findMarkerScript (marker : String) (n : Node) : Except String (Option String) :=
  match n with
  | .elem _ _ cs => findMarkerScriptIn marker cs
  | .text _ => .ok none

/-! ### The field extractors (module utils)

Each definition mirrors one function of utils; the Except layer carries
the Python exceptions a call can raise (IndexError in parse_price,
AttributeError in parse_living_area, TypeError and JSONDecodeError in
parse_photo_array).  initialize_soup builds a BeautifulSoup object from
HTML text; since HTML text is represented here by its parse tree, it is
the identity on that representation. -/

def initialize_soup (htmlTree : Node) : Node := htmlTree

/-- utils.parse_address: find the h2 with itemprop address and class pt-1;
strip its text; split once on comma-space; the address is the full
stripped text and the region the part after the first separator, when a
split happened.  When the element is absent the Python function falls
through and implicitly returns None (none here), despite its declared
non-optional tuple return type. -/
def parse_address (soup : Node) : Option (String × Option String) :=
  match soup.findFirst (matchesQuery "h2" [("itemprop", "address"), ("class", "pt-1")]) with
  | some el =>
    let address_text := pyStrip (nodeText el)
    match pySplit1 ", " address_text with
    | [_, second] => some (address_text, some second)
    | _ => some (address_text, none)
  | none => none

/-- utils.parse_photo_array: find the script whose string contains the
marker window.MosaicPhotoUrls; slice its text from the first opening
bracket to one past the first closing bracket (each searched in the whole
text, with the Python find result -1 on absence feeding the slice); pass
the slice to json.loads.  Sum.inl carries the decoded array, Sum.inr the
sentinel returned when no script matches. -/
def parse_photo_array (soup : Node) : Except String (List String ⊕ String) :=
  match findMarkerScript "window.MosaicPhotoUrls" soup with
  | .error e => .error e
  | .ok none => .ok (.inr "Script tag not found.")
  | .ok (some script_text) =>
    let start_index := pyFindChar script_text '['
    let end_index := pyFindChar script_text ']' + 1
    let photo_array_str := pySlice script_text start_index end_index
    match pyJsonLoadsArr photo_array_str with
    | .ok photo_array => .ok (.inl photo_array)
    | .error e => .error e

/-- utils.parse_price: find the span with class text-nowrap; split the
text of its parent on whitespace and concatenate the tokens at indices 1
and 2 (an IndexError when fewer than three tokens); sentinel when the
span is absent. -/
def parse_price (soup : Node) : Except String String :=
  match soup.findFirstWithParent (matchesQuery "span" [("class", "text-nowrap")]) with
  | some (_, parent) =>
    let price_text := pySplitWs (nodeText parent)
    match price_text.get? 1, price_text.get? 2 with
    | some t1, some t2 => .ok (t1 ++ t2)
    | _, _ => .error "IndexError: list index out of range"
  | none => .ok "Price element not found."

/-- utils.parse_bedrooms: stripped text of the div with class cac, or the
sentinel. -/
def parse_bedrooms (soup : Node) : String :=
  match soup.findFirst (matchesQuery "div" [("class", "cac")]) with
  | some el => pyStrip (nodeText el)
  | none => "Bedrooms element not found."

/-- utils.parse_living_area: find the div with class carac-value, then a
span inside it; the stripped text of that span.  When the div exists but
holds no span, the find returns None and the text access raises
AttributeError; when the div is absent, the sentinel is returned. -/
def parse_living_area (soup : Node) : Except String String :=
  match soup.findFirst (matchesQuery "div" [("class", "carac-value")]) with
  | some el =>
    match el.findFirst (matchesQuery "span" []) with
    | some sp => .ok (pyStrip (nodeText sp))
    | none => .error "AttributeError: \x27NoneType\x27 object has no attribute \x27text\x27"
  | none => .ok "Living area element not found."

/-- utils.parse_description: stripped text of the div with itemprop
description, or the sentinel. -/
def parse_description (soup : Node) : String :=
  match soup.findFirst (matchesQuery "div" [("itemprop", "description")]) with
  | some el => pyStrip (nodeText el)
  | none => "No description available."

/-- utils.parse_page_title: stripped text of the span with data-id
PageTitle, or None. -/
def parse_page_title (soup : Node) : Option String :=
  match soup.findFirst (matchesQuery "span" [("data-id", "PageTitle")]) with
  | some el => some (pyStrip (nodeText el))
  | none => none

/-! ### The listing pipeline (module parser, class AsyncParser)

AsyncParser holds a shared data list and logs through the logging module;
both are modelled by an explicit PState threaded through the operations.
Each fetch_data task awaits its HTTP response and then runs parse_link
synchronously on the single-threaded event loop, so the effects of the
tasks gathered by parse_all_links_async are applied atomically per link,
in completion order; the completion order is an arbitrary permutation of
the input links and is passed explicitly. -/

/-- One entry of AsyncParser.data, with the exact dictionary keys used in
parse_link.  Pictures holds either the decoded photo list (inl) or the
sentinel string returned by parse_photo_array (inr). -/
structure ListingRecord where
  Link : String
  PageTitle : Option String
  Region : Option String
  Address : String
  Description : String
  Pictures : List String ⊕ String
  Price : String
  Bedrooms : String
  Area : String
deriving DecidableEq, Repr

/-- The observable state of an AsyncParser run: the shared data list and
the error log (one string per logging call, in order). -/
structure PState where
  data : List ListingRecord
  log : List String
deriving DecidableEq, Repr

/-- The body of AsyncParser.parse_link up to the append: run the
extractors in source order; the first raised exception aborts the body
(Except.error); the subscripts address_info[1] and address_info[0] on the
None returned by parse_address for a document without an address element
raise TypeError.  On success the assembled record is returned. -/
def parse_link_record (link : String) (soup : Node) : Except String ListingRecord :=
  let count_bedrooms := parse_bedrooms soup
  match parse_living_area soup with
  | .error e => .error e
  | .ok living_area =>
    match parse_photo_array soup with
    | .error e => .error e
    | .ok photo_array =>
      match parse_price soup with
      | .error e => .error e
      | .ok price_text =>
        match parse_address soup with
        | none => .error "TypeError: \x27NoneType\x27 object is not subscriptable"
        | some address_info =>
          .ok
            { Link := link
              PageTitle := parse_page_title soup
              Region := address_info.2
              Address := address_info.1
              Description := parse_description soup
              Pictures := photo_array
              Price := price_text
              Bedrooms := count_bedrooms
              Area := living_area }

/-- The message logged by the except clause of parse_link. -/
def parse_err_log (link e : String) : String :=
  "Failed to parse data for link " ++ link ++ ". Error: " ++ e

/-- The message logged by the except clause of fetch_data. -/
def fetch_err_log (link e : String) : String :=
  "Failed to fetch data for link " ++ link ++ ". Error: " ++ e

/-- AsyncParser.parse_link: append the record to the data list; any
exception from the body is caught and logged, and the data list is left
unchanged. -/
def parse_link (link : String) (soup : Node) (st : PState) : PState :=
  match parse_link_record link soup with
  | .ok r => { st with data := st.data ++ [r] }
  | .error e =>
    { st with log := st.log ++ [parse_err_log link e] }

/-- The outcome of the HTTP GET a link resolves to: a response with a
status code and a body (the body represented by its parse tree), or an
aiohttp client error carrying its message. -/
inductive FetchOutcome where
  | response (status : Nat) (page : Node)
  | clientError (msg : String)

/-- The text of the ClientResponseError raised by raise_for_status,
abstracted to its status code. -/
def statusErrText (status : Nat) : String := toString status

/-- AsyncParser.fetch_data: GET the link; raise_for_status raises for a
status of 400 or more; on success parse the body and run parse_link; an
aiohttp.ClientError (including the raise_for_status one) is caught and
logged. -/
def fetch_data (world : String → FetchOutcome) (link : String) (st : PState) : PState :=
  match world link with
  | .response status page =>
    if 400 ≤ status then
      { st with log := st.log ++ [fetch_err_log link (statusErrText status)] }
    else parse_link link (initialize_soup page) st
  | .clientError e =>
    { st with log := st.log ++ [fetch_err_log link e] }

/-- AsyncParser.parse_all_links_async: gather a fetch_data task per link;
the shared state receives the per-link effects in completion order, given
here as the list completionOrder (a permutation of the input links). -/
def parse_all_links_async (world : String → FetchOutcome)
    (completionOrder : List String) (st : PState) : PState :=
  completionOrder.foldl (fun s link => fetch_data world link s) st

/-- The record a single link contributes to the data list, if any. -/
def link_result (world : String → FetchOutcome) (link : String) : Option ListingRecord :=
  match world link with
  | .response status page =>
    if 400 ≤ status then none
    else
      match parse_link_record link (initialize_soup page) with
      | .ok r => some r
      | .error _ => none
  | .clientError _ => none

/-- The log line a single link contributes, if any. -/
def link_log (world : String → FetchOutcome) (link : String) : Option String :=
  match world link with
  | .response status page =>
    if 400 ≤ status then some (fetch_err_log link (statusErrText status))
    else
      match parse_link_record link (initialize_soup page) with
      | .ok _ => none
      | .error e => some (parse_err_log link e)
  | .clientError e => some (fetch_err_log link e)

/-! ### The output writer (module data_saver, class DataSaver)

DataSaver.save_data_to_json receives arbitrary Python data (annotated as
a list of dictionaries but unchecked), opens the output file and streams
json.dump(data, indent=2) into it.  Python values are modelled by PyVal,
with a constructor for objects json.dump cannot serialize (on which it
raises TypeError); the file system is modelled by whether the open call
succeeds (openError carries the OSError text when it does not).  Partial
file contents left behind by a dump that raises midway are not modelled:
the file field is the full rendered text exactly on success. -/

inductive PyVal where
  | vstr (s : String)
  | vnone
  | vlist (xs : List PyVal)
  | vdict (kvs : List (String × PyVal))
  | vobj (typeName : String)
deriving Repr

/-- JSON string escaping as json.dump performs it on the character set
used here (quote, backslash and the common control characters; other
characters pass through). -/
def jsonEscapeChar (c : Char) : String :=
  if c = '\x22' then "\\\x22"
  else if c = '\\' then "\\\\"
  else if c = '\n' then "\\n"
  else if c = '\t' then "\\t"
  else if c = '\r' then "\\r"
  else String.mk [c]

/-- A JSON string literal for s. -/
def jsonQuote (s : String) : String :=
  "\x22" ++ String.join (s.toList.map jsonEscapeChar) ++ "\x22"

/-- Indentation of 2*lvl spaces, as produced by indent=2. -/
def indentStr (lvl : Nat) : String :=
  String.mk (List.replicate (2 * lvl) ' ')

/-- json.dump(value, indent=2) at nesting level lvl: strings and null
inline; nonempty lists and dictionaries open a bracket, put each item on
its own line at the next indent level, and close the bracket at the
current level; empty containers collapse; a non-serializable object
raises TypeError. -/
def pyDump : PyVal → Nat → Except String String
  | .vstr s, _ => .ok (jsonQuote s)
  | .vnone, _ => .ok "null"
  | .vobj t, _ => .error ("TypeError: Object of type " ++ t ++ " is not JSON serializable")
  | .vlist [], _ => .ok "[]"
  | .vlist (x :: xs), lvl =>
    match pyDumpItems (x :: xs) (lvl + 1) with
    | .error e => .error e
    | .ok items =>
      .ok ("[\n" ++ String.intercalate ",\n" (items.map (indentStr (lvl + 1) ++ ·)) ++
        "\n" ++ indentStr lvl ++ "]")
  | .vdict [], _ => .ok "\x7b\x7d"
  | .vdict (kv :: kvs), lvl =>
    match pyDumpPairs (kv :: kvs) (lvl + 1) with
    | .error e => .error e
    | .ok items =>
      .ok ("\x7b\n" ++ String.intercalate ",\n" (items.map (indentStr (lvl + 1) ++ ·)) ++
        "\n" ++ indentStr lvl ++ "\x7d")
where
  pyDumpItems : List PyVal → Nat → Except String (List String)
  | [], _ => .ok []
  | x :: xs, lvl =>
    match pyDump x lvl with
    | .error e => .error e
    | .ok t =>
      match pyDumpItems xs lvl with
      | .error e => .error e
      | .ok ts => .ok (t :: ts)
  pyDumpPairs : List (String × PyVal) → Nat → Except String (List String)
  | [], _ => .ok []
  | (k, v) :: kvs, lvl =>
    match pyDump v lvl with
    | .error e => .error e
    | .ok t =>
      match pyDumpPairs kvs lvl with
      | .error e => .error e
      | .ok ts => .ok ((jsonQuote k ++ ": " ++ t) :: ts)

/-- The observable outcome of save_data_to_json: the written file content
(on full success) and the one log line emitted. -/
structure SaveResult where
  file : Option String
  log : List String
deriving DecidableEq, Repr

/-- DataSaver.save_data_to_json: open output.json for writing (openError
is the OSError text when the destination cannot be opened), dump the data
with a 2-space indent, and log completion; every exception of the body
(the OSError of open as well as the TypeError of json.dump) is caught by
the bare except Exception clause and logged, so the method always returns
normally. -/
def save_data_to_json (openError : Option String) (data : PyVal) : SaveResult :=
  match openError with
  | some e =>
    { file := none, log := ["Failed to save data to output.json. Error: " ++ e] }
  | none =>
    match pyDump data 0 with
    | .ok txt => { file := some txt, log := ["Data extraction completed."] }
    | .error e =>
      { file := none, log := ["Failed to save data to output.json. Error: " ++ e] }

/-- The dictionary parse_link builds, as the Python value DataSaver
receives: the keys in insertion order. -/
def recordToPy (r : ListingRecord) : PyVal :=
  .vdict
    [ ("Link", .vstr r.Link)
    , ("PageTitle", match r.PageTitle with | some s => .vstr s | none => .vnone)
    , ("Region", match r.Region with | some s => .vstr s | none => .vnone)
    , ("Address", .vstr r.Address)
    , ("Description", .vstr r.Description)
    , ("Pictures", match r.Pictures with
        | .inl xs => .vlist (xs.map PyVal.vstr)
        | .inr s => .vstr s)
    , ("Price", .vstr r.Price)
    , ("Bedrooms", .vstr r.Bedrooms)
    , ("Area", .vstr r.Area) ]

/-- The values json.dump serializes without raising. -/
def serializableB : PyVal → Bool
  | .vstr _ => true
  | .vnone => true
  | .vobj _ => false
  | .vlist xs => serializableListB xs
  | .vdict kvs => serializablePairsB kvs
where
  serializableListB : List PyVal → Bool
  | [] => true
  | x :: xs => serializableB x && serializableListB xs
  serializablePairsB : List (String × PyVal) → Bool
  | [] => true
  | (_, v) :: kvs => serializableB v && serializablePairsB kvs

/-! ### The link collector (module get_all_links)

get_all_links_from_page fetches the given url with requests.get and
scans the parsed body; scrape_links_with_selenium drives a Chrome
session: on each iteration it loads the start url in the driver, extends
the global accumulator with the result of get_all_links_from_page on
that same url, and clicks the element of class next, aborting the whole
collection (NoSuchElementException propagates through the try/finally)
when that element is absent.  The two network channels are modelled by a
ScrapeWorld giving, per iteration, the page state the driver shows after
its get and the document requests.get returns. -/

/-- The fragment of urllib.parse.urljoin exercised with the fixed base
https://realtylink.org (no path, no query): a missing or empty href is
falsy and urljoin returns the base; an absolute http or https reference
replaces the base; a scheme-relative reference inherits https; a
root-relative or bare relative path is resolved against the empty base
path. -/
def strStartsWith (s pre : String) : Bool :=
  pre.toList.isPrefixOf s.toList

def urljoin (base : String) (href : Option String) : String :=
  match href with
  | none => base
  | some h =>
    if h = "" then base
    else if strStartsWith h "http://" || strStartsWith h "https://" then h
    else if strStartsWith h "//" then "https:" ++ h
    else if strStartsWith h "/" then base ++ h
    else base ++ "/" ++ h

/-- get_all_links.get_all_links_from_page on the parsed response body:
collect every anchor of class a-more-detail, resolve each href attribute
against the base url, and return the list; when no anchor matched (so
the collected list is empty) return the sentinel string instead. -/
def get_all_links_from_page (page : Node) : List String ⊕ String :=
  let base_url := "https://realtylink.org"
  let description_divs := page.findAll (matchesQuery "a" [("class", "a-more-detail")])
  let list_of_links := description_divs.map fun d => urljoin base_url (getAttr d "href")
  if list_of_links.isEmpty then
    .inr "Elements <a class=\x27a-more-detail\x27> not found."
  else .inl list_of_links

/-- list.extend with a value that is either a list of strings or a bare
string: a string is iterated character by character, so extending with it
appends one single-character string per character. -/
def pyExtend (acc : List String) : List String ⊕ String → List String
  | .inl links => acc ++ links
  | .inr s => acc ++ s.toList.map fun c => String.mk [c]

/-- The environment of one scraping run: for iteration i, the driver
page state after driver.get(url) and the document requests.get(url)
returns inside get_all_links_from_page. -/
structure ScrapeWorld where
  selPage : Nat → Node
  reqPage : Nat → Node

/-- Is an element of class next present on the driver page?
find_element(By.CLASS_NAME, ...) matches a class token. -/
def hasNextControl (page : Node) : Bool :=
  (page.findFirst fun n => hasClassToken n "next").isSome

/-- The loop body of scrape_links_with_selenium from iteration i with n
iterations left: load the url, extend the accumulator, look for the next
control and click it; when the control is absent find_element raises
NoSuchElementException, the loop aborts (the Bool result is true) and the
links accumulated so far remain in the global list. -/
def scrapeGo (w : ScrapeWorld) : Nat → Nat → List String → List String × Bool
  | _, 0, acc => (acc, false)
  | i, n + 1, acc =>
    let acc2 := pyExtend acc (get_all_links_from_page (w.reqPage i))
    if hasNextControl (w.selPage i) then scrapeGo w (i + 1) n acc2
    else (acc2, true)

/-- get_all_links.scrape_links_with_selenium with num_pages iterations,
starting from an empty global accumulator: the final accumulator and
whether the collection aborted on a missing next control. -/
def scrape_links_with_selenium (w : ScrapeWorld) (num_pages : Nat) : List String × Bool :=
  scrapeGo w 0 num_pages []

/-! ### Pipeline characterization lemmas -/

theorem fetch_data_eq (world : String → FetchOutcome) (link : String) (st : PState) :
    fetch_data world link st =
      ⟨st.data ++ (link_result world link).toList,
       st.log ++ (link_log world link).toList⟩ := by
  unfold fetch_data link_result link_log parse_link initialize_soup
  cases world link with
  | response status page =>
    simp only
    split
    · simp
    · cases h : parse_link_record link page <;> simp [h]
  | clientError e => simp

theorem parse_all_links_async_eq (world : String → FetchOutcome) :
    ∀ (order : List String) (st : PState),
      parse_all_links_async world order st =
        ⟨st.data ++ order.filterMap (link_result world),
         st.log ++ order.filterMap (link_log world)⟩ := by
  intro order
  induction order with
  | nil => intro st; simp [parse_all_links_async]
  | cons l ls ih =>
    intro st
    show parse_all_links_async world ls (fetch_data world l st) = _
    rw [ih, fetch_data_eq]
    cases hr : link_result world l <;> cases he : link_log world l <;>
      simp [List.filterMap_cons, hr, he]

theorem parse_link_record_ok {link : String} {soup : Node} {la pr : String}
    {ph : List String ⊕ String} {ai : String × Option String}
    (hla : parse_living_area soup = .ok la) (hph : parse_photo_array soup = .ok ph)
    (hpr : parse_price soup = .ok pr) (had : parse_address soup = some ai) :
    parse_link_record link soup =
      .ok
        { Link := link
          PageTitle := parse_page_title soup
          Region := ai.2
          Address := ai.1
          Description := parse_description soup
          Pictures := ph
          Price := pr
          Bedrooms := parse_bedrooms soup
          Area := la } := by
  unfold parse_link_record
  rw [hla, hph, hpr, had]

theorem parse_link_record_err_living {link : String} {soup : Node} {e : String}
    (hla : parse_living_area soup = .error e) :
    parse_link_record link soup = .error e := by
  unfold parse_link_record; rw [hla]

theorem parse_link_record_err_photo {link : String} {soup : Node} {la e : String}
    (hla : parse_living_area soup = .ok la) (hph : parse_photo_array soup = .error e) :
    parse_link_record link soup = .error e := by
  unfold parse_link_record; rw [hla, hph]

theorem parse_link_record_err_price {link : String} {soup : Node} {la e : String}
    {ph : List String ⊕ String}
    (hla : parse_living_area soup = .ok la) (hph : parse_photo_array soup = .ok ph)
    (hpr : parse_price soup = .error e) :
    parse_link_record link soup = .error e := by
  unfold parse_link_record; rw [hla, hph, hpr]

theorem parse_link_record_err_address {link : String} {soup : Node} {la pr : String}
    {ph : List String ⊕ String}
    (hla : parse_living_area soup = .ok la) (hph : parse_photo_array soup = .ok ph)
    (hpr : parse_price soup = .ok pr) (had : parse_address soup = none) :
    parse_link_record link soup =
      .error "TypeError: \x27NoneType\x27 object is not subscriptable" := by
  unfold parse_link_record; rw [hla, hph, hpr, had]

theorem parse_link_record_link {link : String} {soup : Node} {r : ListingRecord}
    (h : parse_link_record link soup = .ok r) : r.Link = link := by
  cases hla : parse_living_area soup with
  | error e => rw [parse_link_record_err_living hla] at h; exact Except.noConfusion h
  | ok la =>
  cases hph : parse_photo_array soup with
  | error e => rw [parse_link_record_err_photo hla hph] at h; exact Except.noConfusion h
  | ok ph =>
  cases hpr : parse_price soup with
  | error e => rw [parse_link_record_err_price hla hph hpr] at h; exact Except.noConfusion h
  | ok pr =>
  cases had : parse_address soup with
  | none => rw [parse_link_record_err_address hla hph hpr had] at h; exact Except.noConfusion h
  | some ai =>
    rw [parse_link_record_ok hla hph hpr had] at h
    simp only [Except.ok.injEq] at h
    rw [← h]

theorem link_result_link {world : String → FetchOutcome} {l : String}
    {r : ListingRecord} (h : link_result world l = some r) : r.Link = l := by
  unfold link_result at h
  cases hw : world l with
  | response status page =>
    rw [hw] at h
    by_cases hs : 400 ≤ status
    · simp [hs] at h
    · simp only [if_neg hs] at h
      cases hp : parse_link_record l (initialize_soup page) with
      | ok r2 =>
        rw [hp] at h
        simp only [Option.some.injEq] at h
        rw [← h]
        exact parse_link_record_link hp
      | error e => rw [hp] at h; exact absurd h (by simp)
  | clientError e => rw [hw] at h; exact absurd h (by simp)

/-! ### Concrete fixtures -/

/-- A listing page with every field element present and well formed. -/
def goodDoc : Node :=
  .elem "[document]" [] [
    .elem "body" [] [
      .elem "span" [("data-id", "PageTitle")] [.text "Apartment for rent"],
      .elem "h2" [("itemprop", "address"), ("class", "pt-1")]
        [.text " 555 Rue Principale, Montreal, QC "],
      .elem "div" [("class", "price-box")] [
        .text " x $1,750 month ",
        .elem "span" [("class", "text-nowrap")] [.text "$1,750"]],
      .elem "div" [("class", "cac")] [.text " 2 "],
      .elem "div" [("class", "carac-value")] [.elem "span" [] [.text " 800 sqft "]],
      .elem "div" [("itemprop", "description")] [.text " Nice place "],
      .elem "script" [] [.text "window.MosaicPhotoUrls = [\x22a.jpg\x22,\x22b.jpg\x22];"]
    ]
  ]

/-- A page with no recognizable listing elements at all. -/
def emptyDoc : Node := .elem "[document]" [] []

def okLink : String := "https://realtylink.org/en/ok-listing"

def badLink : String := "https://realtylink.org/en/bad-listing"

/-- The end-to-end scenario of the specification: one link resolves to a
valid listing page, every other link to an HTTP 500 response. -/
def scenarioWorld : String → FetchOutcome := fun l =>
  if l = okLink then .response 200 goodDoc else .response 500 emptyDoc

/-! ### C10: link provenance and record count -/

/-- C10: after parse_all_links_async completes on any list of input links
(the tasks finishing in any completion order), every record in the data
list has its Link field equal to one of the input links, and there are at
most as many records as input links. -/
theorem C10_record_links_from_inputs (world : String → FetchOutcome)
    (links order : List String) (hperm : order.Perm links) :
    (∀ r ∈ (parse_all_links_async world order ⟨[], []⟩).data, r.Link ∈ links) ∧
    (parse_all_links_async world order ⟨[], []⟩).data.length ≤ links.length := by
  rw [parse_all_links_async_eq]
  simp only [List.nil_append]
  constructor
  · intro r hr
    obtain ⟨l, hl, hres⟩ := List.mem_filterMap.1 hr
    rw [link_result_link hres]
    exact hperm.mem_iff.1 hl
  · calc (List.filterMap (link_result world) order).length
        ≤ order.length := List.length_filterMap_le _ _
      _ = links.length := hperm.length_eq

theorem C10_record_links_from_inputs_witness :
    (∀ r ∈ (parse_all_links_async scenarioWorld [okLink, badLink] ⟨[], []⟩).data,
        r.Link ∈ [okLink, badLink]) ∧
    (parse_all_links_async scenarioWorld [okLink, badLink] ⟨[], []⟩).data.length ≤
      ([okLink, badLink] : List String).length :=
  C10_record_links_from_inputs scenarioWorld [okLink, badLink] [okLink, badLink]
    (List.Perm.refl _)

/-! ### C7: the pipeline is deterministic up to completion order -/

/-- C7: for a fixed environment of responses, two runs of the listing
pipeline over the same input links (each with its own completion order)
produce data lists that are permutations of each other, with identical
field values entry for entry. -/
theorem C7_two_runs_permute (world : String → FetchOutcome)
    (links o1 o2 : List String) (h1 : o1.Perm links) (h2 : o2.Perm links) :
    ((parse_all_links_async world o1 ⟨[], []⟩).data).Perm
      ((parse_all_links_async world o2 ⟨[], []⟩).data) := by
  rw [parse_all_links_async_eq, parse_all_links_async_eq]
  exact ((h1.trans h2.symm).filterMap _).append_left []

theorem C7_two_runs_permute_witness :
    ((parse_all_links_async scenarioWorld [okLink, badLink] ⟨[], []⟩).data).Perm
      ((parse_all_links_async scenarioWorld [badLink, okLink] ⟨[], []⟩).data) :=
  C7_two_runs_permute scenarioWorld [okLink, badLink] [okLink, badLink]
    [badLink, okLink] (List.Perm.refl _) (by decide)

/-! ### C2: per-link failure isolation and the 2-link scenario -/

/-- C2: the run state is exactly the per-link contributions in completion
order, a link whose fetch fails (client error or raise_for_status on an
HTTP 500) contributes no record and exactly one log line naming it, and
in the concrete 2-link scenario (one valid page, one HTTP 500) the
resulting data list has exactly 1 record and the log exactly 1 error
entry referencing the failing link. -/
theorem C2_fetch_failure_isolated :
    (∀ (world : String → FetchOutcome) (order : List String) (st : PState),
        parse_all_links_async world order st =
          ⟨st.data ++ order.filterMap (link_result world),
           st.log ++ order.filterMap (link_log world)⟩) ∧
    (∀ (world : String → FetchOutcome) (l e : String),
        world l = .clientError e →
        link_result world l = none ∧
        link_log world l = some (fetch_err_log l e)) ∧
    (∀ (world : String → FetchOutcome) (l : String) (page : Node),
        world l = .response 500 page →
        link_result world l = none ∧
        link_log world l = some (fetch_err_log l (statusErrText 500))) ∧
    ((parse_all_links_async scenarioWorld [okLink, badLink] ⟨[], []⟩).data.length = 1 ∧
     (parse_all_links_async scenarioWorld [okLink, badLink] ⟨[], []⟩).log =
       [fetch_err_log badLink (statusErrText 500)] ∧
     pyContains (fetch_err_log badLink (statusErrText 500)) badLink = true) := by
  refine ⟨fun world order st => parse_all_links_async_eq world order st, ?_, ?_, ?_⟩
  · intro world l e h
    unfold link_result link_log
    rw [h]
    exact ⟨rfl, rfl⟩
  · intro world l page h
    unfold link_result link_log
    rw [h]
    norm_num
  · refine ⟨by decide, by decide, by decide⟩

theorem C2_fetch_failure_isolated_witness :
    link_result scenarioWorld badLink = none ∧
    link_log scenarioWorld badLink =
      some (fetch_err_log badLink (statusErrText 500)) :=
  C2_fetch_failure_isolated.2.2.1 scenarioWorld badLink emptyDoc rfl

/-! ### C1: independence of the field extractions -/

/-- A listing page with extractable fields but no address element. -/
def noAddressDoc : Node :=
  .elem "[document]" [] [
    .elem "div" [("itemprop", "description")] [.text " Great view "],
    .elem "div" [("class", "cac")] [.text " 3 "]
  ]

/-- C1 counterexample: on a page with no address element, parse_address
returns None, the subscript on it in parse_link raises TypeError, and the
whole record is aborted (no record appended, the error logged) even
though the description and bedrooms fields were extractable — so a
missing address is not represented by a sentinel and its failure does
prevent the other extractions from contributing a record. -/
theorem C1_counterexample_missing_address_aborts_record :
    parse_link "L" noAddressDoc ⟨[], []⟩ =
      ⟨[], ["Failed to parse data for link L. Error: TypeError: \x27NoneType\x27 object is not subscriptable"]⟩ ∧
    parse_description noAddressDoc = "Great view" ∧
    parse_bedrooms noAddressDoc = "3" :=
  ⟨by decide, by decide, by decide⟩

/-- C1 amended: field extractions are independent in the missing-element
sense for every field except the address.  On a document whose fallible
extractions succeed: when the address element is present, parse_link
appends exactly one record in which every field carries the value of its
own extractor; when the address element is absent, parse_address returns
None and parse_link aborts the whole record, logging the TypeError and
appending nothing.  Each of the other extractors maps a missing element
to its documented sentinel value (or None) on every document. -/
theorem C1_field_extraction_independence (doc : Node) (link : String) (st : PState) :
    (∀ la pr (ph : List String ⊕ String),
        parse_living_area doc = .ok la → parse_photo_array doc = .ok ph →
        parse_price doc = .ok pr → parse_address doc = none →
        parse_link link doc st =
          { st with
            log := st.log ++
              [parse_err_log link
                "TypeError: \x27NoneType\x27 object is not subscriptable"] }) ∧
    (∀ la pr (ph : List String ⊕ String) (ai : String × Option String),
        parse_living_area doc = .ok la → parse_photo_array doc = .ok ph →
        parse_price doc = .ok pr → parse_address doc = some ai →
        parse_link link doc st =
          { st with
            data := st.data ++
              [{ Link := link
                 PageTitle := parse_page_title doc
                 Region := ai.2
                 Address := ai.1
                 Description := parse_description doc
                 Pictures := ph
                 Price := pr
                 Bedrooms := parse_bedrooms doc
                 Area := la }] }) ∧
    (doc.findFirst (matchesQuery "div" [("class", "cac")]) = none →
        parse_bedrooms doc = "Bedrooms element not found.") ∧
    (doc.findFirst (matchesQuery "div" [("class", "carac-value")]) = none →
        parse_living_area doc = .ok "Living area element not found.") ∧
    (findMarkerScript "window.MosaicPhotoUrls" doc = .ok none →
        parse_photo_array doc = .ok (.inr "Script tag not found.")) ∧
    (doc.findFirstWithParent (matchesQuery "span" [("class", "text-nowrap")]) = none →
        parse_price doc = .ok "Price element not found.") ∧
    (doc.findFirst (matchesQuery "div" [("itemprop", "description")]) = none →
        parse_description doc = "No description available.") ∧
    (doc.findFirst (matchesQuery "span" [("data-id", "PageTitle")]) = none →
        parse_page_title doc = none) := by
  refine ⟨?_, ?_, ?_, ?_, ?_, ?_, ?_, ?_⟩
  · intro la pr ph hla hph hpr had
    unfold parse_link
    rw [parse_link_record_err_address hla hph hpr had]
  · intro la pr ph ai hla hph hpr had
    unfold parse_link
    rw [parse_link_record_ok hla hph hpr had]
  · intro h; unfold parse_bedrooms; rw [h]
  · intro h; unfold parse_living_area; rw [h]
  · intro h; unfold parse_photo_array; rw [h]
  · intro h; unfold parse_price; rw [h]
  · intro h; unfold parse_description; rw [h]
  · intro h; unfold parse_page_title; rw [h]

theorem C1_field_extraction_independence_witness :
    parse_link okLink goodDoc ⟨[], []⟩ =
      ⟨[{ Link := okLink
          PageTitle := some "Apartment for rent"
          Region := some "Montreal, QC"
          Address := "555 Rue Principale, Montreal, QC"
          Description := "Nice place"
          Pictures := .inl ["a.jpg", "b.jpg"]
          Price := "$1,750month"
          Bedrooms := "2"
          Area := "800 sqft" }], []⟩ ∧
    parse_bedrooms emptyDoc = "Bedrooms element not found." :=
  ⟨((C1_field_extraction_independence goodDoc okLink ⟨[], []⟩).2.1
      "800 sqft" "$1,750month" (.inl ["a.jpg", "b.jpg"])
      ("555 Rue Principale, Montreal, QC", some "Montreal, QC")
      (by decide) (by decide) (by decide) (by decide)).trans (by decide),
   (C1_field_extraction_independence emptyDoc okLink ⟨[], []⟩).2.2.1 rfl⟩

/-! ### C3: the parse_address contract -/

theorem splitAtFirst_comma_space_none {cs : List Char} (h : ',' ∉ cs) :
    splitAtFirst [',', ' '] cs = none := by
  induction cs with
  | nil => rfl
  | cons c rest ih =>
    have hc : c ≠ ',' := fun he => h (he ▸ List.mem_cons_self c rest)
    have hp : [',', ' '].isPrefixOf (c :: rest) = false := by
      cases hcp : [',', ' '].isPrefixOf (c :: rest) with
      | false => rfl
      | true =>
        obtain ⟨t, ht⟩ := List.isPrefixOf_iff_prefix.1 hcp
        have : ',' = c := by
          have := congrArg (fun l => l.headD ' ') ht
          simpa using this
        exact absurd this.symm hc
    rw [splitAtFirst, hp]
    simp only [Bool.false_eq_true, if_false]
    rw [ih fun hm => h (List.mem_cons_of_mem c hm)]

theorem splitAtFirst_decomp {sep cs a b : List Char}
    (h : splitAtFirst sep cs = some (a, b)) : cs = a ++ sep ++ b := by
  induction cs generalizing a b with
  | nil => exact absurd h (by rw [splitAtFirst]; simp)
  | cons c rest ih =>
    rw [splitAtFirst] at h
    by_cases hp : sep.isPrefixOf (c :: rest) = true
    · rw [if_pos hp] at h
      simp only [Option.some.injEq, Prod.mk.injEq] at h
      obtain ⟨ha, hb⟩ := h
      obtain ⟨t, ht⟩ := List.isPrefixOf_iff_prefix.1 hp
      subst ha
      rw [← hb, ← ht, List.drop_left]
      simp [← ht]
    · rw [if_neg hp] at h
      cases hs : splitAtFirst sep rest with
      | none => rw [hs] at h; exact absurd h (by simp)
      | some p =>
        rw [hs] at h
        simp only [Option.some.injEq] at h
        have ha := congrArg Prod.fst h
        have hb := congrArg Prod.snd h
        simp only at ha hb
        subst ha
        subst hb
        have := ih hs
        simp [this]

theorem splitAtFirst_complete {sep cs a b : List Char} (hsep : sep ≠ [])
    (hdec : cs = a ++ sep ++ b)
    (hmin : ∀ i, i < a.length → sep.isPrefixOf (cs.drop i) = false) :
    splitAtFirst sep cs = some (a, b) := by
  induction a generalizing cs with
  | nil =>
    subst hdec
    obtain ⟨s0, srest, rfl⟩ : ∃ s0 srest, sep = s0 :: srest := by
      cases sep with
      | nil => exact absurd rfl hsep
      | cons s0 srest => exact ⟨s0, srest, rfl⟩
    simp only [List.nil_append, List.cons_append]
    rw [splitAtFirst]
    have hp : (s0 :: srest).isPrefixOf (s0 :: (srest ++ b)) = true :=
      List.isPrefixOf_iff_prefix.2 ⟨b, by simp⟩
    rw [if_pos hp]
    have hd : (s0 :: (srest ++ b)).drop (s0 :: srest).length = b := by
      simp
    rw [hd]
  | cons c a2 ih =>
    subst hdec
    simp only [List.cons_append]
    rw [splitAtFirst]
    have hp0 : sep.isPrefixOf (c :: (a2 ++ sep ++ b)) = false := by
      have := hmin 0 (by simp)
      simpa using this
    rw [hp0]
    simp only [Bool.false_eq_true, if_false]
    have hrec := ih rfl (fun i hi => by
      have := hmin (i + 1) (by simpa using Nat.succ_lt_succ hi)
      simpa using this)
    rw [hrec]

/-- A listing page whose address text contains no comma at all. -/
def noCommaAddrDoc : Node :=
  .elem "[document]" [] [
    .elem "h2" [("itemprop", "address"), ("class", "pt-1")] [.text " Reykjavik "]
  ]

/-- C3: parse_address returns the full stripped text with a null region
when the address text has no comma; when the text decomposes around a
first comma-space separator (no earlier occurrence), the region is
exactly the text strictly after that separator and the address the full
text; and when the address element is absent the function implicitly
returns None (none here, against the non-optional declared tuple type). -/
theorem C3_parse_address_contract (doc : Node) :
    (doc.findFirst (matchesQuery "h2" [("itemprop", "address"), ("class", "pt-1")]) =
        none → parse_address doc = none) ∧
    (∀ el,
      doc.findFirst (matchesQuery "h2" [("itemprop", "address"), ("class", "pt-1")]) =
        some el →
      ((',' ∉ (pyStrip (nodeText el)).toList →
          parse_address doc = some (pyStrip (nodeText el), none)) ∧
       (∀ a r : List Char,
          (pyStrip (nodeText el)).toList = a ++ ',' :: ' ' :: r →
          (∀ i, i < a.length →
            ([',', ' '].isPrefixOf ((pyStrip (nodeText el)).toList.drop i)) = false) →
          parse_address doc =
            some (pyStrip (nodeText el), some (String.mk r))))) := by
  constructor
  · intro h
    unfold parse_address
    rw [h]
  · intro el hel
    constructor
    · intro hnc
      unfold parse_address
      rw [hel]
      simp only [pySplit1]
      rw [show (", ").toList = [',', ' '] from rfl,
        splitAtFirst_comma_space_none hnc]
    · intro a r hdec hmin
      unfold parse_address
      rw [hel]
      simp only [pySplit1]
      rw [show (", ").toList = [',', ' '] from rfl,
        @splitAtFirst_complete [',', ' '] (pyStrip (nodeText el)).toList a r
          (by simp) (by simpa using hdec) hmin]

theorem C3_parse_address_contract_witness :
    parse_address goodDoc =
      some ("555 Rue Principale, Montreal, QC", some "Montreal, QC") ∧
    parse_address noCommaAddrDoc = some ("Reykjavik", none) ∧
    parse_address emptyDoc = none := by
  refine ⟨?_, ?_, ?_⟩
  · have h := ((C3_parse_address_contract goodDoc).2
      (.elem "h2" [("itemprop", "address"), ("class", "pt-1")]
        [.text " 555 Rue Principale, Montreal, QC "]) rfl).2
      ("555 Rue Principale".toList) ("Montreal, QC".toList) (by decide) (by decide)
    exact h.trans (by decide)
  · have h := ((C3_parse_address_contract noCommaAddrDoc).2
      (.elem "h2" [("itemprop", "address"), ("class", "pt-1")] [.text " Reykjavik "])
      rfl).1 (by decide)
    exact h.trans (by decide)
  · exact (C3_parse_address_contract emptyDoc).1 rfl

/-! ### C4: the parse_photo_array contract -/

theorem charIndex_first {q : Char} {a : List Char} (rest : List Char) (h : q ∉ a) :
    charIndex q (a ++ q :: rest) = some a.length := by
  induction a with
  | nil => simp [charIndex]
  | cons d ds ih =>
    have hd : d ≠ q := fun he => h (he ▸ List.mem_cons_self d ds)
    have hr := ih fun hm => h (List.mem_cons_of_mem d hm)
    simp [charIndex, hd, hr]

theorem pySlice_natCast {s : String} {i j : Nat} (hi : i ≤ j)
    (hj : j ≤ s.toList.length) :
    pySlice s (i : Int) (j : Int) = String.mk ((s.toList.drop i).take (j - i)) := by
  unfold pySlice
  have h1 : ¬ ((i : Int) < 0) := by omega
  have h2 : ¬ ((j : Int) < 0) := by omega
  have hmi : min (i : Int) (s.toList.length : Int) = (i : Int) := by omega
  have hmj : min (j : Int) (s.toList.length : Int) = (j : Int) := by omega
  simp only [if_neg h1, if_neg h2, hmi, hmj, Int.toNat_natCast]

/-- A page whose marker script text has its first closing bracket before
its first opening bracket. -/
def badSliceDoc : Node :=
  .elem "[document]" [] [
    .elem "script" []
      [.text "x=a]b; window.MosaicPhotoUrls = [\x22a.jpg\x22]"]
  ]

/-- C4 counterexample: on a marker script whose first closing bracket
precedes its first opening bracket, the code slices from the first
opening bracket to one past the first closing bracket of the whole text,
producing an empty slice that json.loads rejects, so parse_photo_array
raises instead of returning the bracket-delimited array the claim
describes (the first closing bracket after the opening one would give the
array a.jpg). -/
theorem C4_counterexample_bracket_scan :
    parse_photo_array badSliceDoc = .error "JSONDecodeError: Expecting value" ∧
    parse_photo_array badSliceDoc ≠ .ok (.inl ["a.jpg"]) :=
  ⟨by decide, by decide⟩

/-- C4 amended: when no script matches the marker, parse_photo_array
returns the exact sentinel; the round trip on the documented script body
yields the two URLs; and in general, for a matched script text that
decomposes around its first opening bracket followed (with no earlier
closing bracket) by a first closing bracket, the result is json.loads of
exactly that first bracket-delimited run.  The brackets are searched
independently in the whole text (first opening bracket, first closing
bracket anywhere), not the first closing bracket after the opening one:
when the first closing bracket of the text precedes the first opening
bracket, the slice is empty and json.loads raises, aborting the record. -/
theorem C4_photo_array_extraction :
    (∀ doc : Node,
        findMarkerScript "window.MosaicPhotoUrls" doc = .ok none →
        parse_photo_array doc = .ok (.inr "Script tag not found.")) ∧
    parse_photo_array goodDoc = .ok (.inl ["a.jpg", "b.jpg"]) ∧
    (∀ (doc : Node) (s : String) (a m b : List Char),
        findMarkerScript "window.MosaicPhotoUrls" doc = .ok (some s) →
        s.toList = a ++ '[' :: (m ++ ']' :: b) →
        '[' ∉ a → ']' ∉ a → ']' ∉ m →
        parse_photo_array doc =
          match pyJsonLoadsArr (String.mk ('[' :: (m ++ [']']))) with
          | .ok xs => .ok (.inl xs)
          | .error e => .error e) := by
  refine ⟨?_, by decide, ?_⟩
  · intro doc h
    unfold parse_photo_array
    rw [h]
  · intro doc s a m b hfind hs hopa hcla hclm
    unfold parse_photo_array
    rw [hfind]
    have hopen : pyFindChar s '[' = (a.length : Int) := by
      unfold pyFindChar
      rw [hs, charIndex_first (m ++ ']' :: b) hopa]
    have hnotcl : ']' ∉ a ++ '[' :: m := by
      intro hm
      rcases List.mem_append.1 hm with hm1 | hm2
      · exact hcla hm1
      · rcases List.mem_cons.1 hm2 with hm3 | hm4
        · exact absurd hm3.symm (by decide)
        · exact hclm hm4
    have hclose : pyFindChar s ']' = ((a.length + 1 + m.length : Nat) : Int) := by
      unfold pyFindChar
      have hs2 : s.toList = (a ++ '[' :: m) ++ ']' :: b := by
        rw [hs]; simp
      rw [hs2, charIndex_first b hnotcl]
      simp
      omega
    have hlen : s.toList.length = a.length + 1 + m.length + 1 + b.length := by
      rw [hs]; simp; omega
    have hcast : ((a.length + 1 + m.length : Nat) : Int) + 1 =
        ((a.length + 1 + m.length + 1 : Nat) : Int) := by omega
    have hdrop : s.toList.drop a.length = '[' :: (m ++ ']' :: b) := by
      rw [hs]
      exact List.drop_left a ('[' :: (m ++ ']' :: b))
    have htake : ('[' :: (m ++ ']' :: b)).take (a.length + 1 + m.length + 1 - a.length) =
        '[' :: (m ++ [']']) := by
      have h1 : a.length + 1 + m.length + 1 - a.length = (m.length + 1) + 1 := by omega
      rw [h1, List.take_succ_cons]
      have h2 : List.take (m.length + 1) (m ++ ']' :: b) =
          m ++ List.take 1 (']' :: b) := List.take_append 1
      simp only [List.take_succ_cons, List.take_zero] at h2
      rw [h2]
    have hslice : pySlice s ((a.length : Nat) : Int)
        (((a.length + 1 + m.length : Nat) : Int) + 1) = String.mk ('[' :: (m ++ [']'])) := by
      rw [hcast, pySlice_natCast (by omega) (by omega), hdrop, htake]
    simp only [hopen, hclose, hslice]

theorem C4_photo_array_extraction_witness :
    parse_photo_array emptyDoc = .ok (.inr "Script tag not found.") ∧
    parse_photo_array goodDoc = .ok (.inl ["a.jpg", "b.jpg"]) :=
  ⟨C4_photo_array_extraction.1 emptyDoc rfl,
   (C4_photo_array_extraction.2.2 goodDoc
      "window.MosaicPhotoUrls = [\x22a.jpg\x22,\x22b.jpg\x22];"
      ("window.MosaicPhotoUrls = ".toList) ("\x22a.jpg\x22,\x22b.jpg\x22".toList)
      (";".toList) (by decide) (by decide) (by decide) (by decide)
      (by decide)).trans (by decide)⟩

/-! ### C5 and C9: the output writer -/

theorem pyDumpItems_strings_ok (xs : List String) (lvl : Nat) :
    ∃ ts, pyDump.pyDumpItems (xs.map PyVal.vstr) lvl = .ok ts := by
  induction xs with
  | nil => exact ⟨[], rfl⟩
  | cons x rest ih =>
    obtain ⟨ts, hts⟩ := ih
    exact ⟨jsonQuote x :: ts, by
      simp only [List.map_cons, pyDump.pyDumpItems, pyDump, hts]⟩

theorem pyDump_strlist_ok (xs : List String) (lvl : Nat) :
    ∃ t, pyDump (.vlist (xs.map PyVal.vstr)) lvl = .ok t := by
  cases xs with
  | nil => exact ⟨"[]", rfl⟩
  | cons x rest =>
    obtain ⟨ts, hts⟩ := pyDumpItems_strings_ok (x :: rest) (lvl + 1)
    simp only [List.map_cons] at hts
    exact ⟨_, by
      simp only [List.map_cons, pyDump, hts]
      rfl⟩

theorem pyDumpPairs_ok {kvs : List (String × PyVal)} {lvl : Nat}
    (h : ∀ kv ∈ kvs, ∃ t, pyDump kv.2 lvl = .ok t) :
    ∃ ts, pyDump.pyDumpPairs kvs lvl = .ok ts := by
  induction kvs with
  | nil => exact ⟨[], rfl⟩
  | cons kv rest ih =>
    obtain ⟨t, ht⟩ := h kv (List.mem_cons_self kv rest)
    obtain ⟨ts, hts⟩ := ih fun kv2 hm => h kv2 (List.mem_cons_of_mem kv hm)
    refine ⟨(jsonQuote kv.1 ++ ": " ++ t) :: ts, ?_⟩
    obtain ⟨k, v⟩ := kv
    rw [pyDump.pyDumpPairs, ht, hts]

theorem pyDump_record_ok (r : ListingRecord) (lvl : Nat) :
    ∃ t, pyDump (recordToPy r) lvl = .ok t := by
  have hpairs : ∀ kv ∈
      [ (("Link" : String), PyVal.vstr r.Link)
      , ("PageTitle", match r.PageTitle with | some s => .vstr s | none => .vnone)
      , ("Region", match r.Region with | some s => .vstr s | none => .vnone)
      , ("Address", .vstr r.Address)
      , ("Description", .vstr r.Description)
      , ("Pictures", match r.Pictures with
          | .inl xs => .vlist (xs.map PyVal.vstr)
          | .inr s => .vstr s)
      , ("Price", .vstr r.Price)
      , ("Bedrooms", .vstr r.Bedrooms)
      , ("Area", .vstr r.Area) ],
      ∃ t, pyDump kv.2 (lvl + 1) = .ok t := by
    intro kv hkv
    simp only [List.mem_cons, List.not_mem_nil, or_false] at hkv
    rcases hkv with h | h | h | h | h | h | h | h | h <;> subst h <;>
      simp only
    · exact ⟨_, rfl⟩
    · cases r.PageTitle <;> exact ⟨_, rfl⟩
    · cases r.Region <;> exact ⟨_, rfl⟩
    · exact ⟨_, rfl⟩
    · exact ⟨_, rfl⟩
    · cases hpi : r.Pictures with
      | inl xs => exact pyDump_strlist_ok xs (lvl + 1)
      | inr s => exact ⟨_, rfl⟩
    · exact ⟨_, rfl⟩
    · exact ⟨_, rfl⟩
    · exact ⟨_, rfl⟩
  obtain ⟨ts, hts⟩ := pyDumpPairs_ok hpairs
  exact ⟨_, by
    simp only [recordToPy, pyDump, hts]
    rfl⟩

theorem pyDumpItems_records_ok (rs : List ListingRecord) (lvl : Nat) :
    ∃ ts, pyDump.pyDumpItems (rs.map recordToPy) lvl = .ok ts := by
  induction rs with
  | nil => exact ⟨[], rfl⟩
  | cons r rest ih =>
    obtain ⟨t, ht⟩ := pyDump_record_ok r lvl
    obtain ⟨ts, hts⟩ := ih
    exact ⟨t :: ts, by
      simp only [List.map_cons, pyDump.pyDumpItems, ht, hts]⟩

theorem pyDump_records_ok (rs : List ListingRecord) :
    ∃ t, pyDump (.vlist (rs.map recordToPy)) 0 = .ok t := by
  cases rs with
  | nil => exact ⟨"[]", rfl⟩
  | cons r rest =>
    obtain ⟨ts, hts⟩ := pyDumpItems_records_ok (r :: rest) 1
    simp only [List.map_cons] at hts
    exact ⟨_, by
      simp only [List.map_cons, pyDump, hts]
      rfl⟩

/-- A sample record used to pin down the exact rendering. -/
def sampleRecord : ListingRecord :=
  { Link := "https://realtylink.org/en/1"
    PageTitle := some "T"
    Region := none
    Address := "A"
    Description := "D"
    Pictures := .inl ["a.jpg", "b.jpg"]
    Price := "$1,500"
    Bedrooms := "2"
    Area := "800 sqft" }

/-- The text json.dump(data, indent=2) produces for a one-record list
containing sampleRecord. -/
def sampleRendered : String :=
  "[\n  \x7b\n    \x22Link\x22: \x22https://realtylink.org/en/1\x22,\n    \x22PageTitle\x22: \x22T\x22,\n    \x22Region\x22: null,\n    \x22Address\x22: \x22A\x22,\n    \x22Description\x22: \x22D\x22,\n    \x22Pictures\x22: [\n      \x22a.jpg\x22,\n      \x22b.jpg\x22\n    ],\n    \x22Price\x22: \x22$1,500\x22,\n    \x22Bedrooms\x22: \x222\x22,\n    \x22Area\x22: \x22800 sqft\x22\n  \x7d\n]"

/-- C5: for every list of records, each serialized record is a JSON
object whose keys are exactly Link, PageTitle, Region, Address,
Description, Pictures, Price, Bedrooms, Area in that order; with a
writable destination the full list serializes successfully (the file
receives the dump, completion is logged); when the destination cannot be
opened the OSError is logged and the writer still returns normally; and
the rendering uses the stable 2-space indent, pinned down exactly on a
sample record. -/
theorem C5_output_writer_contract (records : List ListingRecord) :
    (∀ r : ListingRecord, ∃ kvs, recordToPy r = PyVal.vdict kvs ∧
        kvs.map Prod.fst =
          ["Link", "PageTitle", "Region", "Address", "Description", "Pictures",
           "Price", "Bedrooms", "Area"]) ∧
    (∃ txt, pyDump (.vlist (records.map recordToPy)) 0 = .ok txt ∧
        save_data_to_json none (.vlist (records.map recordToPy)) =
          ⟨some txt, ["Data extraction completed."]⟩) ∧
    (∀ e : String, save_data_to_json (some e) (.vlist (records.map recordToPy)) =
        ⟨none, ["Failed to save data to output.json. Error: " ++ e]⟩) ∧
    pyDump (.vlist [recordToPy sampleRecord]) 0 = .ok sampleRendered := by
  refine ⟨?_, ?_, ?_, by decide⟩
  · intro r
    exact ⟨_, rfl, rfl⟩
  · obtain ⟨t, ht⟩ := pyDump_records_ok records
    refine ⟨t, ht, ?_⟩
    unfold save_data_to_json
    rw [ht]
  · intro e
    rfl

/-- C9: save_data_to_json returns normally on every input and emits
exactly one log line; in particular a TypeError from json.dump on
non-serializable data (not an I/O failure) is caught by the bare except
clause and logged, so the caller can never observe an error through the
return or an exception. -/
theorem C9_save_catches_all_exceptions :
    (∀ (openError : Option String) (data : PyVal),
        ∃ m, (save_data_to_json openError data).log = [m]) ∧
    save_data_to_json none (.vlist [.vobj "set"]) =
      ⟨none, ["Failed to save data to output.json. Error: TypeError: Object of type set is not JSON serializable"]⟩ := by
  constructor
  · intro openError data
    unfold save_data_to_json
    cases openError with
    | some e => exact ⟨_, rfl⟩
    | none =>
      cases h : pyDump data 0 with
      | ok t => exact ⟨_, rfl⟩
      | error e => exact ⟨_, rfl⟩
  · decide

/-! ### C6 and C8: the link collector -/

theorem pyExtend_append (acc : List String) (x : List String ⊕ String) :
    pyExtend acc x = acc ++ pyExtend [] x := by
  cases x <;> simp [pyExtend]

/-- The strings one loop iteration of scrape_links_with_selenium appends
to the global accumulator: the collected links, or — when
get_all_links_from_page returned its sentinel string — that string
iterated character by character. -/
def iterationLinks (w : ScrapeWorld) (i : Nat) : List String :=
  pyExtend [] (get_all_links_from_page (w.reqPage i))

theorem scrapeGo_all_next (w : ScrapeWorld) :
    ∀ (n i : Nat) (acc : List String),
      (∀ k, k < n → hasNextControl (w.selPage (i + k)) = true) →
      scrapeGo w i n acc =
        (acc ++ ((List.range' i n).map (iterationLinks w)).flatten, false) := by
  intro n
  induction n with
  | zero => intro i acc _; simp [scrapeGo]
  | succ n ih =>
    intro i acc h
    have h0 : hasNextControl (w.selPage i) = true := by
      have := h 0 (Nat.succ_pos n)
      simpa using this
    have hrest : ∀ k, k < n → hasNextControl (w.selPage (i + 1 + k)) = true := by
      intro k hk
      have := h (k + 1) (by omega)
      rw [show i + 1 + k = i + (k + 1) by omega]
      exact this
    rw [scrapeGo]
    simp only [h0, if_true]
    rw [ih (i + 1) _ hrest, pyExtend_append, List.range'_succ]
    simp [iterationLinks, List.append_assoc]

theorem scrapeGo_abort (w : ScrapeWorld) :
    ∀ (j n i : Nat) (acc : List String), j < n →
      (∀ k, k < j → hasNextControl (w.selPage (i + k)) = true) →
      hasNextControl (w.selPage (i + j)) = false →
      scrapeGo w i n acc =
        (acc ++ ((List.range' i (j + 1)).map (iterationLinks w)).flatten, true) := by
  intro j
  induction j with
  | zero =>
    intro n i acc hjn _ hj
    obtain ⟨n2, rfl⟩ : ∃ n2, n = n2 + 1 := ⟨n - 1, by omega⟩
    simp only [Nat.add_zero] at hj
    rw [scrapeGo]
    simp only [hj, Bool.false_eq_true, if_false]
    rw [pyExtend_append, List.range'_succ]
    simp [iterationLinks]
  | succ j ih =>
    intro n i acc hjn h hj
    obtain ⟨n2, rfl⟩ : ∃ n2, n = n2 + 1 := ⟨n - 1, by omega⟩
    have h0 : hasNextControl (w.selPage i) = true := by
      have := h 0 (Nat.succ_pos j)
      simpa using this
    have hrest : ∀ k, k < j → hasNextControl (w.selPage (i + 1 + k)) = true := by
      intro k hk
      have := h (k + 1) (by omega)
      rw [show i + 1 + k = i + (k + 1) by omega]
      exact this
    have hj2 : hasNextControl (w.selPage (i + 1 + j)) = false := by
      rw [show i + 1 + j = i + (j + 1) by omega]
      exact hj
    rw [scrapeGo]
    simp only [h0, if_true]
    rw [ih n2 (i + 1) _ (by omega) hrest hj2, pyExtend_append]
    conv_rhs => rw [List.range'_succ, List.range'_succ]
    simp [iterationLinks, List.append_assoc]
    rw [List.range'_succ]
    simp [iterationLinks]

/-- A driver page carrying a next-page control. -/
def nextPage : Node :=
  .elem "[document]" [] [.elem "li" [("class", "next")] [.text "Next"]]

/-- A listings page with two detail anchors carrying root-relative hrefs. -/
def listingPage : Node :=
  .elem "[document]" [] [
    .elem "a" [("class", "a-more-detail"), ("href", "/en/prop-1")] [.text "d1"],
    .elem "a" [("class", "a-more-detail"), ("href", "/en/prop-2")] [.text "d2"]
  ]

/-- A scraping environment whose driver always shows a next control and
whose listings request always returns the two-anchor page. -/
def twoAnchorWorld : ScrapeWorld :=
  { selPage := fun _ => nextPage, reqPage := fun _ => listingPage }

/-- A scraping environment whose listings request returns a page with no
matching anchor. -/
def noAnchorWorld : ScrapeWorld :=
  { selPage := fun _ => nextPage, reqPage := fun _ => emptyDoc }

/-- C6: scrape_links_with_selenium repeats num_pages times the sequence
load page, collect the anchors of the a-more-detail class with each href
resolved against the base url, append them to the accumulator, click the
next control; when every iteration finds the next control the result is
the concatenation of all num_pages iteration payloads; when some
iteration is the first without a next control the collection aborts there
with only the payloads up to and including that iteration. -/
theorem C6_link_collector_loop (w : ScrapeWorld) (num_pages : Nat) :
    ((∀ i, i < num_pages → hasNextControl (w.selPage i) = true) →
        scrape_links_with_selenium w num_pages =
          (((List.range num_pages).map (iterationLinks w)).flatten, false)) ∧
    (∀ j, j < num_pages → (∀ i, i < j → hasNextControl (w.selPage i) = true) →
        hasNextControl (w.selPage j) = false →
        scrape_links_with_selenium w num_pages =
          (((List.range (j + 1)).map (iterationLinks w)).flatten, true)) ∧
    (∀ page : Node,
        page.findAll (matchesQuery "a" [("class", "a-more-detail")]) ≠ [] →
        get_all_links_from_page page =
          .inl ((page.findAll (matchesQuery "a" [("class", "a-more-detail")])).map
            fun d => urljoin "https://realtylink.org" (getAttr d "href"))) := by
  refine ⟨?_, ?_, ?_⟩
  · intro h
    unfold scrape_links_with_selenium
    rw [List.range_eq_range']
    exact scrapeGo_all_next w num_pages 0 [] (by simpa using h)
  · intro j hj hall hnone
    unfold scrape_links_with_selenium
    rw [List.range_eq_range']
    exact scrapeGo_abort w j num_pages 0 [] hj (by simpa using hall)
      (by simpa using hnone)
  · intro page hne
    unfold get_all_links_from_page
    have hmap : (page.findAll (matchesQuery "a" [("class", "a-more-detail")])).map
        (fun d => urljoin "https://realtylink.org" (getAttr d "href")) ≠ [] := by
      simpa using hne
    simp only [List.isEmpty_iff, if_neg hmap]

theorem C6_link_collector_loop_witness :
    scrape_links_with_selenium twoAnchorWorld 2 =
      (["https://realtylink.org/en/prop-1", "https://realtylink.org/en/prop-2",
        "https://realtylink.org/en/prop-1", "https://realtylink.org/en/prop-2"],
       false) :=
  ((C6_link_collector_loop twoAnchorWorld 2).1 fun _ _ => rfl).trans (by decide)

/-- C8: when a listings page contains no anchor of class a-more-detail,
get_all_links_from_page returns the sentinel string instead of a list,
and the loop of scrape_links_with_selenium then extends the accumulator
with that string — one single-character entry per character of the
sentinel instead of URLs; the final conjunct shows a full one-page run
producing exactly those single-character entries. -/
theorem C8_no_anchor_extends_characters (page : Node)
    (h : page.findAll (matchesQuery "a" [("class", "a-more-detail")]) = []) :
    get_all_links_from_page page =
      .inr "Elements <a class=\x27a-more-detail\x27> not found." ∧
    (∀ acc : List String,
        pyExtend acc (get_all_links_from_page page) =
          acc ++ "Elements <a class=\x27a-more-detail\x27> not found.".toList.map
            (fun c => String.mk [c])) ∧
    scrape_links_with_selenium noAnchorWorld 1 =
      ("Elements <a class=\x27a-more-detail\x27> not found.".toList.map
        (fun c => String.mk [c]), false) := by
  have hs : get_all_links_from_page page =
      .inr "Elements <a class=\x27a-more-detail\x27> not found." := by
    unfold get_all_links_from_page
    rw [h]
    rfl
  exact ⟨hs, fun acc => by rw [hs, pyExtend], by decide⟩

theorem C8_no_anchor_extends_characters_witness :
    get_all_links_from_page emptyDoc =
      .inr "Elements <a class=\x27a-more-detail\x27> not found." ∧
    pyExtend [] (get_all_links_from_page emptyDoc) =
      [] ++ "Elements <a class=\x27a-more-detail\x27> not found.".toList.map
        (fun c => String.mk [c]) :=
  ⟨(C8_no_anchor_extends_characters emptyDoc rfl).1,
   (C8_no_anchor_extends_characters emptyDoc rfl).2.1 []⟩

end Realty
